import Mathlib

/-!
Shallow embedding of `src/state-machine.js` from brophdawg11/state-machine.

The library is a small promise-based finite state machine.  We model:
  * the JS runtime values the library manipulates (`SM.Val`, `SM.RVal`),
  * the configuration validator `_validateMachine` together with its helper
    functions `get`, `has`, `getValidated`, `isPlainObject` (raw level, over
    untyped JS values),
  * the runtime engine `_setState` / `transition` / the constructor over a
    structured machine whose hooks are modelled as functions from their four
    arguments to an observable behavior (synchronous throw, plain return
    value, or a thenable with a given eventual settlement),
  * the diagram exporter `getDotFile`, including the JS `String.trim` calls.

JS objects are modelled as association lists in key-insertion order, which is
the enumeration order of `Object.keys` / `Object.entries` for string keys.
Hook invocations are recorded in an event trace whose list order is the
chronological order of the synchronous invocations.
-/

namespace SM

/-- JS values, restricted to what the library produces and inspects.
`error msg` models `new Error(msg)`; `typeError msg` models a runtime
`TypeError` (the exact engine-generated message text is not modelled, only
which property access failed).  `obj` is an opaque caller-supplied value. -/
inductive Val where
  | undef
  | null
  | str (s : String)
  | obj (id : Nat)
  | error (msg : String)
  | typeError (msg : String)
deriving DecidableEq, Repr

/-- The eventual settlement of a JS promise (assuming it settles at all;
a never-settling promise never produces a `PSettle`). -/
inductive PSettle where
  | fulfilled (v : Val)
  | rejected (e : Val)
deriving DecidableEq, Repr

/-- Observable behavior of one synchronous invocation of a hook: it either
throws synchronously, returns a plain (non-thenable) value, or returns a
truthy thenable whose eventual settlement is `s`.  The source detects the
thenable case with `retVal && isFunction(retVal.then)`. -/
inductive HookBehavior where
  | throws (e : Val)
  | ret (v : Val)
  | retThenable (s : PSettle)
deriving DecidableEq, Repr

/-- A hook (`onEnter` function), as a function of its four arguments
`(payload, newState, oldState, transitionName)`. -/
def Hook := Val → Val → Val → Val → HookBehavior

/-- One recorded hook invocation, with the four arguments it received.
Trace order is chronological order of the synchronous calls. -/
inductive Event where
  | globalEnter (payload newState oldState transitionName : Val)
  | stateEnter (payload newState oldState transitionName : Val)
deriving DecidableEq, Repr

/-- How a `transition` / `_setState` call communicates its outcome:
  * `syncThrow e`   — the call itself throws `e` synchronously (no promise),
  * `rejectedNow e` — it returns a promise already rejected with `e`,
  * `resolvedNow v` — it returns a promise immediately fulfilled with `v`,
  * `lockstep s`    — it returns a promise that settles exactly as the
    thenable returned by the per-state hook settles (same value, unwrapped);
    if the hook thenable never settles, neither does the returned promise. -/
inductive TransOutcome where
  | syncThrow (e : Val)
  | rejectedNow (e : Val)
  | resolvedNow (v : Val)
  | lockstep (s : PSettle)
deriving DecidableEq, Repr

/-- Result of the synchronous part of a `transition` / `_setState` call:
the value of `this._currentState` once the call has returned (or thrown),
the hook invocations performed, and the outcome. -/
structure StepResult where
  currentState : Val
  events : List Event
  outcome : TransOutcome
deriving DecidableEq, Repr

/-- Association-list lookup in key order; models JS own-property lookup on
objects whose keys are strings. -/
def lookupKey {α : Type} : List (String × α) → String → Option α
  | [], _ => none
  | (k, v) :: rest, key => if k = key then some v else lookupKey rest key

/-- A state definition: the `transitions` mapping and the optional per-state
`onEnter` hook.  A missing `transitions` field behaves identically to an
empty mapping everywhere in the source (`has` returns `false` on `undefined`,
`isPlainObject(undefined)` is `false` so validation skips it, and
`getDotFile` applies `|| {}`), so it is modelled as the empty list. -/
structure StateDef where
  transitions : List (String × String)
  onEnter : Option Hook

/-- A machine definition: `states` maps state names to a definition or to
JS `null` (terminal state, modelled as `none`), plus the optional global
`onEnter` hook. -/
structure Machine where
  states : List (String × Option StateDef)
  onEnter : Option Hook

/-- The Promise-executor body of `_setState` (part_000 lines 559-570): run
the entered state's `onEnter` hook if its definition is non-null and has
one, adopting a returned thenable and resolving plain values immediately;
otherwise `resolve()` (fulfil with `undefined`).  A synchronous throw inside
the executor rejects the new promise with the thrown value. -/
def enterStateHook (m : Machine) (state : String) (oldState tname data : Val) :
    List Event × TransOutcome :=
  match lookupKey m.states state with
  | some (some sd) =>
    match sd.onEnter with
    | some h =>
      match h data (Val.str state) oldState tname with
      | .throws e => ([Event.stateEnter data (Val.str state) oldState tname], .rejectedNow e)
      | .ret v => ([Event.stateEnter data (Val.str state) oldState tname], .resolvedNow v)
      | .retThenable s => ([Event.stateEnter data (Val.str state) oldState tname], .lockstep s)
    | none => ([], .resolvedNow Val.undef)
  | _ => ([], .resolvedNow Val.undef)

/-- `StateMachine.prototype._setState` (part_000 lines 542-571).  After the
defensive key check it mutates `this._currentState`, then invokes the global
`onEnter` (outside any promise: a synchronous throw there propagates out of
the call as a synchronous exception and its return value is discarded), then
builds the returned promise around the per-state hook. -/
def _setState (m : Machine) (cur : Val) (state : String) (tname data : Val) :
    StepResult :=
  if (lookupKey m.states state).isSome then
    match m.onEnter with
    | some g =>
      match g data (Val.str state) cur tname with
      | .throws e =>
        ⟨Val.str state, [Event.globalEnter data (Val.str state) cur tname], .syncThrow e⟩
      | _ =>
        ⟨Val.str state,
          Event.globalEnter data (Val.str state) cur tname ::
            (enterStateHook m state cur tname data).1,
          (enterStateHook m state cur tname data).2⟩
    | none =>
      ⟨Val.str state, (enterStateHook m state cur tname data).1,
        (enterStateHook m state cur tname data).2⟩
  else
    ⟨cur, [], .rejectedNow (Val.error ("Cannot transition to invalid state " ++ state))⟩

/-- `StateMachine.prototype.transition` (part_000 lines 623-634), for an
instance whose `_currentState` is the string `cur` (which is every instance
the constructor can produce).  `states[cur]` being `undefined` or `null`
makes the JS expression `state.transitions` throw a `TypeError`
synchronously, before anything else happens. -/
def transition (m : Machine) (cur : String) (name : String) (data : Val) :
    StepResult :=
  match lookupKey m.states cur with
  | none =>
    ⟨Val.str cur, [], .syncThrow (Val.typeError "Cannot read properties of undefined (reading transitions)")⟩
  | some none =>
    ⟨Val.str cur, [], .syncThrow (Val.typeError "Cannot read properties of null (reading transitions)")⟩
  | some (some sd) =>
    match lookupKey sd.transitions name with
    | none =>
      ⟨Val.str cur, [],
        .rejectedNow (Val.error ("Invalid transition (" ++ name ++ ") from current state(" ++ cur ++ ")"))⟩
    | some dest => _setState m (Val.str cur) dest (Val.str name) data

/-! ## Raw JS values and the configuration validator

`_validateMachine` receives whatever the caller passed to the constructor,
so it is modelled over untyped JS values.  Plain objects
(`Object.prototype.toString` gives `[object Object]`) are distinguished from
exotic objects (arrays, class instances, dates, ...), which still carry own
properties but fail `isPlainObject`.  Functions are `typeof 'function'`,
hence not `'object'` for `has`, and their own properties are not modelled
(no code path reads a property off a function).  Numbers are modelled as
integers; `NaN` and floats play no role in any claim. -/

/-- An untyped JS value as seen by the validator. -/
inductive RVal where
  | undef
  | null
  | boolV (b : Bool)
  | numV (n : Int)
  | strV (s : String)
  | plainObj (fields : List (String × RVal))
  | funcV (id : Nat)
  | exotic (id : Nat) (fields : List (String × RVal))

/-- JS truthiness. -/
def truthy : RVal → Bool
  | RVal.undef => false
  | .null => false
  | .boolV b => b
  | .numV n => decide (n ≠ 0)
  | .strV s => decide (s ≠ "")
  | _ => true

/-- `isPlainObject` (part_000 lines 292-294). -/
def isPlainObject : RVal → Bool
  | .plainObj _ => true
  | _ => false

/-- `get(obj, path)` (part_000 lines 318-338) specialised to the single-token
path the library uses (`'states'`): yields the own property when present
and defined, `undefined` otherwise (no default value is ever passed). -/
def get (obj : RVal) (key : String) : RVal :=
  match obj with
  | .plainObj fields => (lookupKey fields key).getD RVal.undef
  | .exotic _ fields => (lookupKey fields key).getD RVal.undef
  | _ => RVal.undef

/-- `has(obj, key)` (part_000 lines 349-357): requires `obj` to be non-null
of `typeof 'object'` and `key` to be a string, then `hasOwnProperty`. -/
def has (obj key : RVal) : Bool :=
  match obj, key with
  | .plainObj fields, .strV k => (lookupKey fields k).isSome
  | .exotic _ fields, .strV k => (lookupKey fields k).isSome
  | _, _ => false

/-- `getValidated(obj, path, validator)` (part_000 lines 372-378); the
default value argument is never passed, hence `undefined`. -/
def getValidated (obj : RVal) (key : String) (validator : RVal → Bool) : RVal :=
  if validator (get obj key) then get obj key else RVal.undef

/-- `Object.entries` of a plain object (only ever applied to values that
passed `isPlainObject`). -/
def fieldsOf : RVal → List (String × RVal)
  | .plainObj fields => fields
  | _ => []

/-- Rendering of a value inside a JS template literal, for the
`Invalid initial state: ${initialState}` message.  Function and exotic
object renderings are engine/class specific and not modelled precisely;
no claim depends on them. -/
def toTemplateString : RVal → String
  | RVal.undef => "undefined"
  | .null => "null"
  | .boolV true => "true"
  | .boolV false => "false"
  | .numV n => toString n
  | .strV s => s
  | .plainObj _ => "[object Object]"
  | .funcV _ => "[function]"
  | .exotic _ _ => "[object]"

/-- The inner `forEach` of `_validateMachine` over one state's transition
entries: throw on the first destination that is not an own key of
`machine.states`. -/
def checkDests (statesObj : RVal) : List (String × RVal) → Except String Unit
  | [] => .ok ()
  | (t, dest) :: rest =>
    if has statesObj dest then checkDests statesObj rest
    else .error ("Invalid destination state for transition: " ++ t)

/-- The outer `forEach` of `_validateMachine` over the state entries: a
state participates only when it is truthy and its `transitions` property is
a plain object. -/
def checkStates (statesObj : RVal) : List (String × RVal) → Except String Unit
  | [] => .ok ()
  | (_, st) :: rest =>
    if truthy st && isPlainObject (get st "transitions") then
      match checkDests statesObj (fieldsOf (get st "transitions")) with
      | .error e => .error e
      | .ok _ => checkStates statesObj rest
    else checkStates statesObj rest

/-- `StateMachine._validateMachine` (part_000 lines 475-492).  Pure: its
only effect is the returned success or error. -/
def _validateMachine (machine initialState : RVal) : Except String Unit :=
  if truthy (getValidated machine "states" isPlainObject) then
    if has (getValidated machine "states" isPlainObject) initialState then
      checkStates (getValidated machine "states" isPlainObject)
        (fieldsOf (getValidated machine "states" isPlainObject))
    else
      .error ("Invalid initial state: " ++ toTemplateString initialState)
  else
    .error "Invalid states"

/-! ## The constructor -/

/-- The raw-value image of a structured state's transitions mapping. -/
def StateDef.rawTransitions (sd : StateDef) : List (String × RVal) :=
  sd.transitions.map (fun p => (p.1, RVal.strV p.2))

/-- The raw-value image of a structured state definition. -/
def StateDef.raw (sd : StateDef) : RVal :=
  .plainObj
    (("transitions", .plainObj sd.rawTransitions) ::
      (match sd.onEnter with
       | some _ => [("onEnter", RVal.funcV 0)]
       | none => []))

/-- The raw-value image of one `states` entry: a state definition or `null`. -/
def rawOptState : Option StateDef → RVal
  | some sd => sd.raw
  | none => .null

/-- The raw-value image of the `states` mapping of a structured machine. -/
def Machine.rawStates (m : Machine) : List (String × RVal) :=
  m.states.map (fun p => (p.1, rawOptState p.2))

/-- The raw-value image of a structured machine definition, as passed to
`_validateMachine` by the constructor. -/
def Machine.raw (m : Machine) : RVal :=
  .plainObj
    (("states", .plainObj m.rawStates) ::
      (match m.onEnter with
       | some _ => [("onEnter", RVal.funcV 1)]
       | none => []))

/-- Validation of a structured machine: exactly what the constructor runs. -/
def validateM (m : Machine) (init : String) : Except String Unit :=
  _validateMachine m.raw (.strV init)

/-- The constructor (part_000 lines 455-460): set `_currentState` to `null`,
validate (a validation error throws and no instance is produced), then call
`this._setState(initialState)` — so with `transition` and `data` both
`undefined` and `oldState` read as the initial `null`.  The promise returned
by `_setState` is discarded: only a synchronous throw (from the global hook)
can escape the constructor.  On success we return the resulting
`currentState` together with the hook-invocation trace of the initial
entry. -/
def construct (m : Machine) (init : String) : Except Val (Val × List Event) :=
  match validateM m init with
  | .error msg => .error (Val.error msg)
  | .ok _ =>
    match (_setState m Val.null init Val.undef Val.undef).outcome with
    | .syncThrow e => .error e
    | _ =>
      .ok ((_setState m Val.null init Val.undef Val.undef).currentState,
        (_setState m Val.null init Val.undef Val.undef).events)

/-! ## The diagram exporter -/

/-- JS `String.prototype.trim` whitespace (the characters that occur in the
strings the exporter builds). -/
def jsWhitespace (c : Char) : Bool :=
  c = ' ' || c = '\n' || c = '\t' || c = '\r'

/-- JS `String.prototype.trim`. -/
def jsTrim (s : String) : String :=
  String.mk (((s.data.dropWhile jsWhitespace).reverse.dropWhile jsWhitespace).reverse)

/-- The node-line reduce of `getDotFile`:
`stateNames.reduce((acc, k) => acc + '    "' + k + '";\n', '').trim()`. -/
def nodeLines (stateNames : List String) : String :=
  jsTrim (stateNames.foldl (fun acc k => acc ++ "    \"" ++ k ++ "\";\n") "")

/-- The inner edge-line reduce of `getDotFile` for one source state:
`Object.entries(stateTransitions).reduce(...).trim()`.  Reading
`this._machine.states[from].transitions` throws a `TypeError` when the
state definition is `null` (the `|| {}` only guards a missing
`transitions` field, which the model folds into the empty mapping). -/
def edgeLinesFor (m : Machine) (fromS : String) : Except Val String :=
  match lookupKey m.states fromS with
  | some (some sd) =>
    .ok (jsTrim (sd.transitions.foldl
      (fun acc2 p =>
        acc2 ++ "    \"" ++ fromS ++ "\" -> \"" ++ p.2 ++ "\" [label=\"" ++ p.1 ++ "\"];\n")
      ""))
  | some none => .error (Val.typeError "Cannot read properties of null (reading transitions)")
  | none => .error (Val.typeError "Cannot read properties of undefined (reading transitions)")

/-- The outer edge reduce of `getDotFile`: skip states whose trimmed edge
string is empty (falsy), otherwise append `'    ' + str + '\n'`. -/
def edgeAccum (m : Machine) : List String → String → Except Val String
  | [], acc => .ok acc
  | fromS :: rest, acc =>
    match edgeLinesFor m fromS with
    | .error e => .error e
    | .ok str =>
      edgeAccum m rest (if str = "" then acc else acc ++ "    " ++ str ++ "\n")

/-- `StateMachine.prototype.getDotFile` (part_000 lines 580-603).  The
`production` flag models `process.env.NODE_ENV === 'production'`, in which
case the body is skipped and `''` is returned. -/
def getDotFile (production : Bool) (m : Machine) : Except Val String :=
  if production then .ok "" else
    let stateNames := m.states.map Prod.fst
    let states := nodeLines stateNames
    match edgeAccum m stateNames "" with
    | .error e => .error e
    | .ok transAcc =>
      let transitions := jsTrim transAcc
      .ok (jsTrim ("\ndigraph \"fsm\" \x7b\n    " ++ states ++ "\n    " ++ transitions ++ "\n\x7d"))

/-! ## Derived predicates and concrete configurations -/

/-- One state entry participates in destination checking exactly when it is
truthy with a plain `transitions` object; in that case all its destinations
must be own keys of the states object. -/
def stateDestsOK (S st : RVal) : Bool :=
  !(truthy st && isPlainObject (get st "transitions")) ||
    (fieldsOf (get st "transitions")).all (fun q => has S q.2)

/-- Every checked destination across all state entries is an own key of the
states object. -/
def destsOK (S : RVal) (fields : List (String × RVal)) : Bool :=
  fields.all (fun p => stateDestsOK S p.2)

/-- The machine's global hook, if present, does not throw synchronously when
invoked with the given four arguments. -/
def globalOk (m : Machine) (p n o t : Val) : Prop :=
  ∀ (g : Hook) (e : Val), m.onEnter = some g → g p n o t ≠ HookBehavior.throws e

/-- The two-state toggle machine of the repository's test suite (without
hooks): `off --turnOn--> on`, `on --turnOff--> off`. -/
def offDef : StateDef := ⟨[("turnOn", "on")], none⟩

def onDef : StateDef := ⟨[("turnOff", "off")], none⟩

def toggleMachine : Machine := ⟨[("off", some offDef), ("on", some onDef)], none⟩

/-- The machine of the repository's `should handle transition-less states`
test: `alwaysOn` is a terminal state with a `null` definition. -/
def terminalMachine : Machine :=
  ⟨[("off", some ⟨[("turnOn", "alwaysOn")], none⟩), ("alwaysOn", none)], none⟩

/-- A per-state hook returning a thenable that eventually rejects with the
opaque value 42. -/
def promiseHook : Hook := fun _ _ _ _ => .retThenable (.rejected (Val.obj 42))

def promiseOnDef : StateDef := ⟨[("turnOff", "off")], some promiseHook⟩

def promiseMachine : Machine := ⟨[("off", some offDef), ("on", some promiseOnDef)], none⟩

/-- A global hook that returns a plain value. -/
def gRet : Hook := fun _ _ _ _ => .ret Val.undef

/-- The toggle machine with a global hook and a thenable-returning hook on
`on`, mirroring the test suite's `machineConfig`. -/
def hookedMachine : Machine :=
  ⟨[("off", some offDef), ("on", some promiseOnDef)], some gRet⟩

/-- A global hook that throws synchronously. -/
def gBoom : Hook := fun _ _ _ _ => .throws (Val.error "boom")

def boomMachine : Machine := ⟨[("off", some offDef), ("on", some onDef)], some gBoom⟩

/-- A single-state machine whose initial state's per-state hook throws
synchronously during the implicit initial entry. -/
def throwingInit : Machine :=
  ⟨[("a", some ⟨[], some (fun _ _ _ _ => .throws (Val.error "init-fail"))⟩)], none⟩

/-- A single-state machine whose initial state's hook returns a thenable
that eventually rejects. -/
def rejectingInit : Machine :=
  ⟨[("a", some ⟨[], some (fun _ _ _ _ => .retThenable (.rejected (Val.error "late-fail")))⟩)], none⟩

/-- A raw configuration whose single state has a self-loop transition;
validates successfully. -/
def loopCfg : RVal :=
  .plainObj [("states", .plainObj
    [("a", .plainObj [("transitions", .plainObj [("go", .strV "a")])])])]

/-- A raw configuration with an empty `states` mapping. -/
def emptyStatesCfg : RVal := .plainObj [("states", .plainObj [])]

/-- A raw configuration that is itself not a plain object (an exotic object,
e.g. a class instance) but carries a well-formed plain `states` mapping. -/
def exoticCfg : RVal := .exotic 0 [("states", .plainObj [("a", .null)])]

/-! ## Basic lemmas about lookup and the validator -/

theorem lookupKey_map {α β : Type} (f : α → β) :
    ∀ (l : List (String × α)) (k : String),
      lookupKey (l.map (fun p => (p.1, f p.2))) k = (lookupKey l k).map f
  | [], _ => rfl
  | (k', _) :: rest, k => by
    simp only [List.map_cons, lookupKey]
    by_cases h : k' = k
    · simp [h]
    · simp [h, lookupKey_map f rest k]

theorem lookupKey_some_mem {α : Type} :
    ∀ {l : List (String × α)} {k : String} {v : α},
      lookupKey l k = some v → (k, v) ∈ l := by
  intro l
  induction l with
  | nil => intro k v h; exact Option.noConfusion h
  | cons hd tl ih =>
    intro k v h
    obtain ⟨k', v'⟩ := hd
    by_cases hk : k' = k
    · simp only [lookupKey, if_pos hk] at h
      cases h
      subst hk
      exact List.mem_cons_self _ _
    · simp only [lookupKey, if_neg hk] at h
      exact List.mem_cons_of_mem _ (ih h)

theorem checkDests_ok_iff (S : RVal) :
    ∀ (l : List (String × RVal)),
      checkDests S l = .ok () ↔ ∀ p ∈ l, has S p.2 = true := by
  intro l
  induction l with
  | nil => simp [checkDests]
  | cons hd tl ih =>
    obtain ⟨t, dst⟩ := hd
    by_cases h : has S dst
    · simp [checkDests, h, ih]
    · simp [checkDests, h]

theorem checkDests_error_shape (S : RVal) :
    ∀ (l : List (String × RVal)), checkDests S l ≠ .ok () →
      ∃ t, checkDests S l = .error ("Invalid destination state for transition: " ++ t) := by
  intro l
  induction l with
  | nil => intro h; exact absurd rfl h
  | cons hd tl ih =>
    obtain ⟨t, dst⟩ := hd
    intro h
    by_cases hd : has S dst
    · simp only [checkDests, if_pos hd] at h ⊢
      exact ih h
    · exact ⟨t, by simp [checkDests, hd]⟩

theorem checkStates_ok_iff (S : RVal) :
    ∀ (l : List (String × RVal)),
      checkStates S l = .ok () ↔
        ∀ p ∈ l, (truthy p.2 && isPlainObject (get p.2 "transitions")) = true →
          checkDests S (fieldsOf (get p.2 "transitions")) = .ok () := by
  intro l
  induction l with
  | nil => simp [checkStates]
  | cons hd tl ih =>
    obtain ⟨n, st⟩ := hd
    by_cases hc : (truthy st && isPlainObject (get st "transitions")) = true
    · cases hcd : checkDests S (fieldsOf (get st "transitions")) with
      | error e =>
        constructor
        · intro h0
          simp only [checkStates, if_pos hc, hcd] at h0
          exact Except.noConfusion h0
        · intro hall
          have := hall (n, st) (List.mem_cons_self _ _) hc
          rw [hcd] at this
          exact Except.noConfusion this
      | ok u =>
        cases u
        have hred : checkStates S ((n, st) :: tl) = checkStates S tl := by
          simp only [checkStates, if_pos hc, hcd]
        rw [hred, ih]
        constructor
        · intro hall p hp hcond
          rcases List.mem_cons.mp hp with h1 | h2
          · rw [h1, hcd]
          · exact hall p h2 hcond
        · intro hall p hp hcond
          exact hall p (List.mem_cons_of_mem _ hp) hcond
    · have hred : checkStates S ((n, st) :: tl) = checkStates S tl := by
        simp only [checkStates, if_neg hc]
      rw [hred, ih]
      constructor
      · intro hall p hp hcond
        rcases List.mem_cons.mp hp with h1 | h2
        · rw [h1] at hcond
          exact absurd hcond hc
        · exact hall p h2 hcond
      · intro hall p hp hcond
        exact hall p (List.mem_cons_of_mem _ hp) hcond

theorem checkStates_error_shape (S : RVal) :
    ∀ (l : List (String × RVal)), checkStates S l ≠ .ok () →
      ∃ t, checkStates S l = .error ("Invalid destination state for transition: " ++ t) := by
  intro l
  induction l with
  | nil => intro h; exact absurd rfl h
  | cons hd tl ih =>
    obtain ⟨n, st⟩ := hd
    intro h
    by_cases hc : (truthy st && isPlainObject (get st "transitions")) = true
    · cases hcd : checkDests S (fieldsOf (get st "transitions")) with
      | error e =>
        obtain ⟨t, ht⟩ := checkDests_error_shape S (fieldsOf (get st "transitions"))
          (by rw [hcd]; exact fun hcon => Except.noConfusion hcon)
        rw [hcd] at ht
        cases ht
        exact ⟨t, by simp [checkStates, hc, hcd]⟩
      | ok u =>
        cases u
        simp only [checkStates, hc, if_pos, hcd] at h ⊢
        exact ih h
    · simp only [checkStates, hc, if_neg, Bool.false_eq_true, if_false] at h ⊢
      exact ih h

/-- Reading `states` off the raw image of a structured machine. -/
theorem raw_get_states (m : Machine) :
    get m.raw "states" = .plainObj m.rawStates := rfl

/-- What the constructor-run validation reduces to for a structured
machine: the `Invalid states` branch is unreachable because the raw image
always carries a plain `states` object. -/
theorem validateM_eq (m : Machine) (init : String) :
    validateM m init =
      if has (RVal.plainObj m.rawStates) (RVal.strV init) then
        checkStates (RVal.plainObj m.rawStates) m.rawStates
      else .error ("Invalid initial state: " ++ init) := by
  show _validateMachine m.raw (RVal.strV init) = _
  simp only [_validateMachine, getValidated, raw_get_states, isPlainObject, if_pos, truthy,
    fieldsOf, toTemplateString]

/-- A validated machine has its initial state among the state keys. -/
theorem validateM_ok_init {m : Machine} {init : String}
    (h : validateM m init = .ok ()) : (lookupKey m.states init).isSome = true := by
  rw [validateM_eq] at h
  by_cases hh : has (RVal.plainObj m.rawStates) (RVal.strV init) = true
  · have : (lookupKey m.rawStates init).isSome = true := hh
    rw [Machine.rawStates, lookupKey_map] at this
    cases hl : lookupKey m.states init with
    | none => rw [hl] at this; exact Bool.noConfusion this
    | some v => rfl
  · rw [if_neg hh] at h
    exact Except.noConfusion h

/-- In a validated machine every declared transition destination is itself
a state key (the `InvalidTransitionTarget` check passed). -/
theorem validateM_ok_dest {m : Machine} {init : String}
    (h : validateM m init = .ok ()) :
    ∀ (s : String) (sd : StateDef), lookupKey m.states s = some (some sd) →
      ∀ (t d : String), lookupKey sd.transitions t = some d →
        (lookupKey m.states d).isSome = true := by
  rw [validateM_eq] at h
  intro s sd hs t d ht
  by_cases hh : has (RVal.plainObj m.rawStates) (RVal.strV init) = true
  · rw [if_pos hh] at h
    have hraw : lookupKey m.rawStates s = some (rawOptState (some sd)) := by
      rw [Machine.rawStates, lookupKey_map, hs]
      rfl
    have hmem : (s, rawOptState (some sd)) ∈ m.rawStates := lookupKey_some_mem hraw
    have hok := (checkStates_ok_iff _ _).mp h _ hmem
    have hcond : (truthy (rawOptState (some sd)) &&
        isPlainObject (get (rawOptState (some sd)) "transitions")) = true := rfl
    have hdests := (checkDests_ok_iff _ _).mp (hok hcond)
    have htm : (t, RVal.strV d) ∈ fieldsOf (get (rawOptState (some sd)) "transitions") := by
      show (t, RVal.strV d) ∈ sd.rawTransitions
      rw [StateDef.rawTransitions]
      exact List.mem_map.mpr ⟨(t, d), lookupKey_some_mem ht, rfl⟩
    have hhas := hdests _ htm
    have : (lookupKey m.rawStates d).isSome = true := hhas
    rw [Machine.rawStates, lookupKey_map] at this
    cases hl : lookupKey m.states d with
    | none => rw [hl] at this; exact Bool.noConfusion this
    | some v => rfl
  · rw [if_neg hh] at h
    exact Except.noConfusion h

/-! ## Runtime lemmas -/

/-- A valid transition delegates to `_setState` with the looked-up
destination, the transition name and the payload. -/
theorem transition_valid_eq {m : Machine} {cur name dest : String} {sd : StateDef}
    (data : Val)
    (hs : lookupKey m.states cur = some (some sd))
    (ht : lookupKey sd.transitions name = some dest) :
    transition m cur name data = _setState m (Val.str cur) dest (Val.str name) data := by
  simp only [transition, hs, ht]

/-- Once past the defensive key check, `_setState` commits the new state
unconditionally, whatever the hooks do. -/
theorem _setState_currentState (m : Machine) (cur : Val) (state : String)
    (tname data : Val) (hd : (lookupKey m.states state).isSome = true) :
    (_setState m cur state tname data).currentState = Val.str state := by
  cases hgl : m.onEnter with
  | none => simp [_setState, hgl, hd]
  | some g =>
    cases hb : g data (Val.str state) cur tname <;>
      simp [_setState, hgl, hb, hd]

/-- The per-state part performs at most one hook invocation, with the four
arguments of this entry. -/
theorem enterStateHook_events (m : Machine) (state : String) (oldState tname data : Val) :
    (enterStateHook m state oldState tname data).1 = [] ∨
    (enterStateHook m state oldState tname data).1 =
      [Event.stateEnter data (Val.str state) oldState tname] := by
  cases hl : lookupKey m.states state with
  | none => simp [enterStateHook, hl]
  | some o =>
    cases o with
    | none => simp [enterStateHook, hl]
    | some sd =>
      cases he : sd.onEnter with
      | none => simp [enterStateHook, hl, he]
      | some hk =>
        cases hb : hk data (Val.str state) oldState tname <;>
          simp [enterStateHook, hl, he, hb]

/-- The promise built around the per-state hook is never a synchronous
throw: exceptions inside the executor become rejections. -/
theorem enterStateHook_no_throw (m : Machine) (state : String) (oldState tname data : Val) :
    ∀ e, (enterStateHook m state oldState tname data).2 ≠ .syncThrow e := by
  cases hl : lookupKey m.states state with
  | none => simp [enterStateHook, hl]
  | some o =>
    cases o with
    | none => simp [enterStateHook, hl]
    | some sd =>
      cases he : sd.onEnter with
      | none => simp [enterStateHook, hl, he]
      | some hk =>
        cases hb : hk data (Val.str state) oldState tname <;>
          simp [enterStateHook, hl, he, hb]

/-- With a global hook installed, `_setState` records the global invocation
first; the per-state invocation (if any) comes after it, with the same four
arguments, and does not happen at all when the global hook throws. -/
theorem _setState_events_global (m : Machine) (cur : Val) (state : String)
    (tname data : Val) (g : Hook)
    (hgl : m.onEnter = some g)
    (hd : (lookupKey m.states state).isSome = true) :
    ∃ tl, (_setState m cur state tname data).events =
        Event.globalEnter data (Val.str state) cur tname :: tl ∧
      (tl = [] ∨ tl = [Event.stateEnter data (Val.str state) cur tname]) ∧
      (∀ e, g data (Val.str state) cur tname = .throws e → tl = []) := by
  cases hb : g data (Val.str state) cur tname with
  | throws e =>
    refine ⟨[], ?_, Or.inl rfl, fun _ _ => rfl⟩
    simp [_setState, hgl, hb, hd]
  | ret v =>
    refine ⟨(enterStateHook m state cur tname data).1, ?_,
      enterStateHook_events m state cur tname data,
      fun e he => HookBehavior.noConfusion he⟩
    simp [_setState, hgl, hb, hd]
  | retThenable s =>
    refine ⟨(enterStateHook m state cur tname data).1, ?_,
      enterStateHook_events m state cur tname data,
      fun e he => HookBehavior.noConfusion he⟩
    simp [_setState, hgl, hb, hd]

/-- When the global hook does not throw (or is absent), the outcome of
`_setState` is exactly the outcome of the per-state part: the global hook's
return value never participates. -/
theorem _setState_outcome (m : Machine) (cur : Val) (state : String)
    (tname data : Val)
    (hd : (lookupKey m.states state).isSome = true)
    (hg : globalOk m data (Val.str state) cur tname) :
    (_setState m cur state tname data).outcome =
      (enterStateHook m state cur tname data).2 := by
  cases hgl : m.onEnter with
  | none => simp [_setState, hgl, hd]
  | some g =>
    cases hb : g data (Val.str state) cur tname with
    | throws e => exact absurd hb (hg g e hgl)
    | ret v => simp [_setState, hgl, hb, hd]
    | retThenable s => simp [_setState, hgl, hb, hd]

/-! ## The claims -/

/-- C1: for every validated machine and every transition name that is a key
of the current state's transitions mapping, `transition(name, payload)`
commits `currentState` to the declared destination in its synchronous part,
before the returned asynchronous result settles (the `outcome` component is
what later settles; the `currentState` component is what a read immediately
after the call observes), whatever the hooks do. -/
theorem claim_C1 (m : Machine) (init cur name dest : String) (sd : StateDef)
    (data : Val)
    (hval : validateM m init = .ok ())
    (hs : lookupKey m.states cur = some (some sd))
    (ht : lookupKey sd.transitions name = some dest) :
    (transition m cur name data).currentState = Val.str dest := by
  rw [transition_valid_eq data hs ht]
  exact _setState_currentState m (Val.str cur) dest (Val.str name) data
    (validateM_ok_dest hval cur sd hs name dest ht)

/-- Witness for C1 on the repository's two-state toggle machine. -/
theorem claim_C1_witness :
    (transition toggleMachine "off" "turnOn" Val.undef).currentState = Val.str "on" :=
  claim_C1 toggleMachine "off" "off" "turnOn" "on" offDef Val.undef rfl rfl rfl

/-- C2: when the current state has a non-null definition whose transitions
mapping lacks the requested name, `transition` leaves `currentState`
untouched, invokes no hooks (empty event trace), and returns a promise
already rejected with an `Error` whose message carries the attempted name
and the current state name.  The machine definition itself is never
mutated (all operations are pure functions of it), so the machine stays
fully usable. -/
theorem claim_C2 (m : Machine) (cur name : String) (sd : StateDef) (data : Val)
    (hs : lookupKey m.states cur = some (some sd))
    (ht : lookupKey sd.transitions name = none) :
    transition m cur name data =
      ⟨Val.str cur, [],
        .rejectedNow (Val.error
          ("Invalid transition (" ++ name ++ ") from current state(" ++ cur ++ ")"))⟩ := by
  simp only [transition, hs, ht]

/-- Witness for C2: `turnOff` is not available from `off`. -/
theorem claim_C2_witness :
    transition toggleMachine "off" "turnOff" Val.undef =
      ⟨Val.str "off", [],
        .rejectedNow (Val.error "Invalid transition (turnOff) from current state(off)")⟩ :=
  claim_C2 toggleMachine "off" "turnOff" offDef Val.undef rfl rfl

/-- C3: provided the global hook does not throw for this entry, the
asynchronous result of a valid transition is determined by the entered
state's hook alone: a returned thenable is adopted in lockstep (same
settlement value, success or failure, unwrapped); a plain return value
fulfils immediately with that value; a missing definition or missing hook
fulfils immediately with `undefined`. -/
theorem claim_C3 (m : Machine) (init cur name dest : String) (sd : StateDef)
    (data : Val)
    (hval : validateM m init = .ok ())
    (hs : lookupKey m.states cur = some (some sd))
    (ht : lookupKey sd.transitions name = some dest)
    (hg : globalOk m data (Val.str dest) (Val.str cur) (Val.str name)) :
    ((∀ (dd : StateDef) (hk : Hook) (s : PSettle),
        lookupKey m.states dest = some (some dd) → dd.onEnter = some hk →
        hk data (Val.str dest) (Val.str cur) (Val.str name) = .retThenable s →
        (transition m cur name data).outcome = .lockstep s) ∧
     (∀ (dd : StateDef) (hk : Hook) (v : Val),
        lookupKey m.states dest = some (some dd) → dd.onEnter = some hk →
        hk data (Val.str dest) (Val.str cur) (Val.str name) = .ret v →
        (transition m cur name data).outcome = .resolvedNow v) ∧
     (lookupKey m.states dest = some none →
        (transition m cur name data).outcome = .resolvedNow Val.undef) ∧
     (∀ (dd : StateDef),
        lookupKey m.states dest = some (some dd) → dd.onEnter = none →
        (transition m cur name data).outcome = .resolvedNow Val.undef)) := by
  have hbase : (transition m cur name data).outcome =
      (enterStateHook m dest (Val.str cur) (Val.str name) data).2 := by
    rw [transition_valid_eq data hs ht]
    exact _setState_outcome m (Val.str cur) dest (Val.str name) data
      (validateM_ok_dest hval cur sd hs name dest ht) hg
  refine ⟨?_, ?_, ?_, ?_⟩
  · intro dd hk s hdd hh hbeh
    rw [hbase]
    simp [enterStateHook, hdd, hh, hbeh]
  · intro dd hk v hdd hh hbeh
    rw [hbase]
    simp [enterStateHook, hdd, hh, hbeh]
  · intro hdd
    rw [hbase]
    simp [enterStateHook, hdd]
  · intro dd hdd hh
    rw [hbase]
    simp [enterStateHook, hdd, hh]

/-- Witness for C3: entering `on` whose hook returns a thenable rejecting
with the opaque value 42 makes the transition's result settle in lockstep
with that rejection. -/
theorem claim_C3_witness :
    (transition promiseMachine "off" "turnOn" (Val.obj 1)).outcome =
      .lockstep (.rejected (Val.obj 42)) :=
  (claim_C3 promiseMachine "off" "off" "turnOn" "on" offDef (Val.obj 1)
      rfl rfl rfl (fun _ _ hE => Option.noConfusion hE)).1
    promiseOnDef promiseHook (.rejected (Val.obj 42)) rfl rfl rfl

/-- C4: whenever a global hook is installed, every state entry — every
valid transition call, and the implicit initial entry performed by
the constructor via `_setState(initialState)` — invokes the global hook
first, and the per-state hook (if it runs at all) afterwards, with both
receiving the same four arguments; on the initial entry the payload and the
transition name are `undefined` (absent) and the old state is the initial
`null`.  If the global hook's synchronous run throws, the per-state hook is
never invoked, so the global hook always runs to synchronous completion
before the per-state hook begins. -/
theorem claim_C4 (m : Machine) (init : String) (g : Hook)
    (hgl : m.onEnter = some g) :
    ((∀ (cur name dest : String) (sd : StateDef) (data : Val),
        validateM m init = .ok () →
        lookupKey m.states cur = some (some sd) →
        lookupKey sd.transitions name = some dest →
        ∃ tl, (transition m cur name data).events =
            Event.globalEnter data (Val.str dest) (Val.str cur) (Val.str name) :: tl ∧
          (tl = [] ∨ tl = [Event.stateEnter data (Val.str dest) (Val.str cur) (Val.str name)]) ∧
          (∀ e, g data (Val.str dest) (Val.str cur) (Val.str name) = .throws e → tl = [])) ∧
     (validateM m init = .ok () →
        ∃ tl, (_setState m Val.null init Val.undef Val.undef).events =
            Event.globalEnter Val.undef (Val.str init) Val.null Val.undef :: tl ∧
          (tl = [] ∨ tl = [Event.stateEnter Val.undef (Val.str init) Val.null Val.undef]) ∧
          (∀ e, g Val.undef (Val.str init) Val.null Val.undef = .throws e → tl = []))) := by
  constructor
  · intro cur name dest sd data hval hs ht
    rw [transition_valid_eq data hs ht]
    exact _setState_events_global m (Val.str cur) dest (Val.str name) data g hgl
      (validateM_ok_dest hval cur sd hs name dest ht)
  · intro hval
    exact _setState_events_global m Val.null init Val.undef Val.undef g hgl
      (validateM_ok_init hval)

/-- Witness for C4 on the hooked toggle machine. -/
theorem claim_C4_witness :
    ∃ tl, (transition hookedMachine "off" "turnOn" (Val.obj 0)).events =
        Event.globalEnter (Val.obj 0) (Val.str "on") (Val.str "off") (Val.str "turnOn") :: tl ∧
      (tl = [] ∨ tl = [Event.stateEnter (Val.obj 0) (Val.str "on") (Val.str "off") (Val.str "turnOn")]) ∧
      (∀ e, gRet (Val.obj 0) (Val.str "on") (Val.str "off") (Val.str "turnOn") = .throws e → tl = []) :=
  (claim_C4 hookedMachine "off" gRet rfl).1 "off" "turnOn" "on" offDef (Val.obj 0)
    rfl rfl rfl

/-- C5 is a code bug.  The machine below is the repository's own
`should handle transition-less states` configuration; it validates, and the
terminal state `alwaysOn` is reachable via `turnOn`.  The claim (and spec
§4.2/§8.7, and the method's own JSDoc, which promises a rejected promise for
every invalid transition) says a `transition` call made while the current
state is terminal fails with a rejected `InvalidTransition` promise; the
code instead evaluates `state.transitions` with `state === null` and throws
a synchronous `TypeError` — no promise is returned at all (`currentState`
is nonetheless left unchanged). -/
theorem claim_C5_bug :
    validateM terminalMachine "off" = .ok () ∧
    (transition terminalMachine "off" "turnOn" Val.undef).currentState = Val.str "alwaysOn" ∧
    transition terminalMachine "alwaysOn" "turnOff" Val.undef =
      ⟨Val.str "alwaysOn", [],
        .syncThrow (Val.typeError "Cannot read properties of null (reading transitions)")⟩ :=
  ⟨rfl, rfl, rfl⟩

/-- C6 as stated is false: a synchronous throw from the global hook
propagates out of `transition` as a synchronous exception, not as a failed
asynchronous result. -/
theorem claim_C6_counterexample :
    (transition boomMachine "off" "turnOn" Val.undef).outcome =
      .syncThrow (Val.error "boom") ∧
    (∀ e, (transition boomMachine "off" "turnOn" Val.undef).outcome ≠ .rejectedNow e) ∧
    (∀ s, (transition boomMachine "off" "turnOn" Val.undef).outcome ≠ .lockstep s) ∧
    (∀ v, (transition boomMachine "off" "turnOn" Val.undef).outcome ≠ .resolvedNow v) :=
  ⟨rfl, fun _ h => TransOutcome.noConfusion h, fun _ h => TransOutcome.noConfusion h,
    fun _ h => TransOutcome.noConfusion h⟩

/-- C6 amended: on a valid transition, an exception thrown synchronously by
the global hook propagates to the caller as a synchronous throw of that very
value (the state is already committed and the per-state hook never runs);
and whenever the global hook does not throw, the returned result is
determined by the per-state part alone, so the global hook's return value
never participates in it. -/
theorem claim_C6 (m : Machine) (init cur name dest : String) (sd : StateDef)
    (data : Val)
    (hval : validateM m init = .ok ())
    (hs : lookupKey m.states cur = some (some sd))
    (ht : lookupKey sd.transitions name = some dest) :
    ((∀ (g : Hook) (e : Val), m.onEnter = some g →
        g data (Val.str dest) (Val.str cur) (Val.str name) = .throws e →
        transition m cur name data =
          ⟨Val.str dest,
            [Event.globalEnter data (Val.str dest) (Val.str cur) (Val.str name)],
            .syncThrow e⟩) ∧
     (globalOk m data (Val.str dest) (Val.str cur) (Val.str name) →
        (transition m cur name data).outcome =
          (enterStateHook m dest (Val.str cur) (Val.str name) data).2)) := by
  have hd := validateM_ok_dest hval cur sd hs name dest ht
  constructor
  · intro g e hgl hb
    rw [transition_valid_eq data hs ht]
    simp [_setState, hgl, hb, hd]
  · intro hg
    rw [transition_valid_eq data hs ht]
    exact _setState_outcome m (Val.str cur) dest (Val.str name) data hd hg

/-- Witness for the amended C6: the throwing global hook surfaces as a
synchronous throw of the same error value. -/
theorem claim_C6_witness :
    transition boomMachine "off" "turnOn" Val.undef =
      ⟨Val.str "on",
        [Event.globalEnter Val.undef (Val.str "on") (Val.str "off") (Val.str "turnOn")],
        .syncThrow (Val.error "boom")⟩ :=
  (claim_C6 boomMachine "off" "off" "turnOn" "on" offDef Val.undef rfl rfl rfl).1
    gBoom (Val.error "boom") rfl rfl

/-- C7 as stated is false in two ways.  A definition whose `states` is an
empty plain mapping is truthy, so it passes the `InvalidConfiguration`
(`'Invalid states'`) check and is rejected by the next check with
`InvalidInitialState` (`'Invalid initial state: ...'`) instead.  And a
definition that is itself not a plain mapping, but carries a plain `states`
mapping (e.g. a class instance), is not rejected at all. -/
theorem claim_C7_counterexample :
    _validateMachine emptyStatesCfg (.strV "a") = .error "Invalid initial state: a" ∧
    _validateMachine emptyStatesCfg (.strV "a") ≠ .error "Invalid states" ∧
    _validateMachine exoticCfg (.strV "a") = .ok () :=
  ⟨rfl, fun h => absurd (Except.error.inj h) (by decide), rfl⟩

/-- C7 amended: construction fails with `InvalidConfiguration`
(`'Invalid states'`) whenever reading `states` off the definition does not
yield a plain mapping — in particular when the definition is absent, or its
`states` field is absent or not a plain mapping (the definition itself is
not required to be a plain mapping); a definition whose `states` is an
empty plain mapping passes that check and is instead rejected with
`InvalidInitialState`, because no initial state is a key of an empty
mapping.  In either case validation raises, so no instance is produced. -/
theorem claim_C7 (machine init : RVal) :
    ((isPlainObject (get machine "states") = false →
        _validateMachine machine init = .error "Invalid states") ∧
     (get machine "states" = .plainObj [] →
        _validateMachine machine init =
          .error ("Invalid initial state: " ++ toTemplateString init))) := by
  constructor
  · intro h
    unfold _validateMachine getValidated
    rw [h]
    simp [truthy]
  · intro h
    unfold _validateMachine getValidated
    rw [h]
    have hhas : has (RVal.plainObj []) init = false := by cases init <;> rfl
    simp [isPlainObject, truthy, hhas]

/-- Witness for the amended C7: a `null` definition is rejected with
`'Invalid states'`. -/
theorem claim_C7_witness :
    _validateMachine RVal.null (RVal.strV "x") = .error "Invalid states" :=
  (claim_C7 RVal.null (RVal.strV "x")).1 rfl

/-- C8: for a definition with a plain `states` mapping and an initial state
that is one of its keys, validation succeeds exactly when every checked
transition destination (of every truthy state entry with a plain
`transitions` mapping) is itself a key of `states`; when some destination
is not, validation fails with the `InvalidTransitionTarget` error naming
some offending transition.  Validation is a pure function: success returns
`()` and mutates nothing. -/
theorem claim_C8 (machine : RVal) (fields : List (String × RVal)) (init : String)
    (hst : get machine "states" = .plainObj fields)
    (hin : has (.plainObj fields) (.strV init) = true) :
    ((_validateMachine machine (.strV init) = .ok () ↔
        destsOK (.plainObj fields) fields = true) ∧
     (destsOK (.plainObj fields) fields = false →
        ∃ t, _validateMachine machine (.strV init) =
          .error ("Invalid destination state for transition: " ++ t))) := by
  have hred : _validateMachine machine (.strV init) =
      checkStates (.plainObj fields) fields := by
    unfold _validateMachine getValidated
    rw [hst]
    simp [isPlainObject, truthy, hin, fieldsOf]
  have hiff : checkStates (.plainObj fields) fields = .ok () ↔
      destsOK (.plainObj fields) fields = true := by
    rw [checkStates_ok_iff, destsOK, List.all_eq_true]
    constructor
    · intro hall p hp
      rw [stateDestsOK]
      by_cases hc : (truthy p.2 && isPlainObject (get p.2 "transitions")) = true
      · have := (checkDests_ok_iff _ _).mp (hall p hp hc)
        simp only [hc, Bool.not_true, Bool.false_or]
        rw [List.all_eq_true]
        intro q hq
        exact this q hq
      · simp only [Bool.not_eq_true] at hc
        simp [hc]
    · intro hall p hp hc
      have := hall p hp
      rw [stateDestsOK, hc] at this
      simp only [Bool.not_true, Bool.false_or, List.all_eq_true] at this
      exact (checkDests_ok_iff _ _).mpr this
  constructor
  · rw [hred]
    exact hiff
  · intro hbad
    rw [hred]
    apply checkStates_error_shape
    intro hok
    rw [hiff.mp hok] at hbad
    exact Bool.noConfusion hbad

/-- Witness for C8: a one-state configuration with a self-loop validates. -/
theorem claim_C8_witness : _validateMachine loopCfg (.strV "a") = .ok () :=
  (claim_C8 loopCfg [("a", .plainObj [("transitions", .plainObj [("go", .strV "a")])])]
    "a" rfl rfl).1.mpr (by decide)

/-- C9 is a code bug.  On the repository's own terminal-state configuration
(which validates, and whose diagram should list both nodes plus the single
edge), `getDotFile` evaluates `this._machine.states[from].transitions` with
a `null` state definition and throws a `TypeError` instead of returning the
digraph text.  For configurations without `null` state definitions the
exporter does return the documented text — shown here on the two-state
machine of spec §8.8, byte-for-byte — and it is a pure function, so
repeated calls are trivially byte-identical. -/
theorem claim_C9_bug :
    validateM terminalMachine "off" = .ok () ∧
    getDotFile false terminalMachine =
      .error (Val.typeError "Cannot read properties of null (reading transitions)") ∧
    getDotFile false toggleMachine =
      .ok "digraph \"fsm\" \x7b\n    \"off\";\n    \"on\";\n    \"off\" -> \"on\" [label=\"turnOn\"];\n    \"on\" -> \"off\" [label=\"turnOff\"];\n\x7d" :=
  ⟨rfl, rfl, rfl⟩

/-- C10: for every validated machine whose global hook does not throw on
the initial entry, construction completes normally with `currentState`
equal to the initial state, with no condition whatsoever on the initial
state's per-state hook: its synchronous throw becomes a rejection of the
internal promise, and that promise — rejected now or later, or fulfilled —
is discarded by the constructor, never surfacing to the caller. -/
theorem claim_C10 (m : Machine) (init : String)
    (hval : validateM m init = .ok ())
    (hg : globalOk m Val.undef (Val.str init) Val.null Val.undef) :
    ∃ evs, construct m init = .ok (Val.str init, evs) := by
  have hd := validateM_ok_init hval
  have hcur := _setState_currentState m Val.null init Val.undef Val.undef hd
  have hnothrow : ∀ e, (_setState m Val.null init Val.undef Val.undef).outcome ≠
      .syncThrow e := by
    intro e
    rw [_setState_outcome m Val.null init Val.undef Val.undef hd hg]
    exact enterStateHook_no_throw m init Val.null Val.undef Val.undef e
  refine ⟨(_setState m Val.null init Val.undef Val.undef).events, ?_⟩
  unfold construct
  rw [hval]
  cases ho : (_setState m Val.null init Val.undef Val.undef).outcome with
  | syncThrow e => exact absurd ho (hnothrow e)
  | rejectedNow e => rw [hcur]
  | resolvedNow v => rw [hcur]
  | lockstep s => rw [hcur]

/-- Witness for C10: a machine whose initial state's hook throws
synchronously still constructs, in state `a`. -/
theorem claim_C10_witness :
    ∃ evs, construct throwingInit "a" = .ok (Val.str "a", evs) :=
  claim_C10 throwingInit "a" rfl (fun _ _ hE => Option.noConfusion hE)

end SM
